import Mathlib

/-!
Verification of the cart state container and its helpers from
`src/store/index.ts` and the helpers module (`isInCart`, `getTotalPrice`,
`formatCurrency`).

The cart is the store's `cartItems` array, embedded as a `List CartItem`.
Each of the four store actions (`addItem`, `removeItem`, `incrementQuantity`,
`decrementQuantity`) reads the current list, computes the updated list and
replaces the state with it; the embedding makes that state passing explicit:
every operation is a function `List CartItem → CartItem → List CartItem`.
JavaScript numbers used as prices are embedded as rationals; quantities,
which the store only ever adds 1 to or subtracts 1 from, as integers;
product ids, compared only with `===`, as naturals.
-/

namespace Cart

/-- Catalog record: `id`, `name`, `description`, `price`, `imageUrl`
(from `src/types`, as used by the store and the helpers). -/
structure Product where
  id : Nat
  name : String
  description : String
  price : ℚ
  imageUrl : String
deriving DecidableEq, Repr

/-- One cart entry: a product snapshot plus a quantity. -/
structure CartItem where
  product : Product
  quantity : Int
deriving DecidableEq, Repr

/-- First index at which the predicate holds, if any: the semantics of
JavaScript `Array.prototype.findIndex` before its `-1` encoding. -/
def findIndexOpt (p : CartItem → Bool) : List CartItem → Option Nat
  | [] => none
  | x :: xs => if p x then some 0 else (findIndexOpt p xs).map (fun i => i + 1)

/-- `findItemIndex` from `src/store/index.ts`: index of the first entry whose
product id equals the given item's product id, `-1` when there is none. -/
def findItemIndex (cartItems : List CartItem) (item : CartItem) : Int :=
  match findIndexOpt (fun cartItem => cartItem.product.id == item.product.id) cartItems with
  | some i => (i : Int)
  | none => -1

/-- In-place update of the element at an index, as done by
`items[itemIndex].quantity++` / `--` on the JavaScript array
(out-of-range indices leave the list unchanged, matching that such an
index never occurs in the store's code paths). -/
def modifyAt : List CartItem → Nat → (CartItem → CartItem) → List CartItem
  | [], _, _ => []
  | x :: xs, 0, f => f x :: xs
  | x :: xs, n + 1, f => x :: modifyAt xs n f

/-- `addItem` from `src/store/index.ts`: when `findItemIndex` is `-1`,
append `{ ...item, quantity: 1 }`; otherwise do nothing. -/
def addItem (items : List CartItem) (item : CartItem) : List CartItem :=
  let itemIndex := findItemIndex items item
  if itemIndex == -1 then items ++ [{ item with quantity := 1 }] else items

/-- `removeItem` from `src/store/index.ts`: when `findItemIndex` is `> -1`,
splice that one element out; otherwise do nothing. -/
def removeItem (items : List CartItem) (item : CartItem) : List CartItem :=
  let itemIndex := findItemIndex items item
  if itemIndex > -1 then items.eraseIdx itemIndex.toNat else items

/-- `incrementQuantity` from `src/store/index.ts`: when `findItemIndex` is
`> -1`, increment that entry's quantity; otherwise do nothing. -/
def incrementQuantity (items : List CartItem) (item : CartItem) : List CartItem :=
  let itemIndex := findItemIndex items item
  if itemIndex > -1 then
    modifyAt items itemIndex.toNat (fun c => { c with quantity := c.quantity + 1 })
  else items

/-- `decrementQuantity` from `src/store/index.ts`: when `findItemIndex` is
`> -1`, decrement that entry's quantity and, if the decremented quantity is
`0`, splice the entry out; otherwise do nothing. -/
def decrementQuantity (items : List CartItem) (item : CartItem) : List CartItem :=
  let itemIndex := findItemIndex items item
  if itemIndex > -1 then
    let items2 := modifyAt items itemIndex.toNat (fun c => { c with quantity := c.quantity - 1 })
    match items2[itemIndex.toNat]? with
    | some c => if c.quantity == 0 then items2.eraseIdx itemIndex.toNat else items2
    | none => items2
  else items

/-- `isInCart` from the helpers module: some entry's product id equals the
given product's id. -/
def isInCart (cartItems : List CartItem) (item : Product) : Bool :=
  cartItems.any (fun cartItem => cartItem.product.id == item.id)

/-- `getTotalPrice` from the helpers module: reduce with
`total + price * quantity` starting from `0`. -/
def getTotalPrice (cartItems : List CartItem) : ℚ :=
  cartItems.foldl (fun total cartItem =>
    total + cartItem.product.price * (cartItem.quantity : ℚ)) 0

/-- Remove the first entry with the given product id (the combined effect of
`findItemIndex` + `splice` in `removeItem`), stated recursively. -/
def removeFirst (pid : Nat) : List CartItem → List CartItem
  | [] => []
  | c :: cs => if c.product.id == pid then cs else c :: removeFirst pid cs

/-- Increment the quantity of the first entry with the given product id,
stated recursively. -/
def incFirst (pid : Nat) : List CartItem → List CartItem
  | [] => []
  | c :: cs =>
    if c.product.id == pid then { c with quantity := c.quantity + 1 } :: cs
    else c :: incFirst pid cs

/-- Decrement the quantity of the first entry with the given product id,
dropping the entry when the decremented quantity is 0, stated recursively. -/
def decFirst (pid : Nat) : List CartItem → List CartItem
  | [] => []
  | c :: cs =>
    if c.product.id == pid then
      if c.quantity - 1 == 0 then cs else { c with quantity := c.quantity - 1 } :: cs
    else c :: decFirst pid cs

/-- The product ids of a cart, in order. -/
def keys (items : List CartItem) : List Nat :=
  items.map (fun c => c.product.id)

/-- The CartEntry invariant of the spec: at most one entry per distinct
product id, and every entry's quantity is at least 1. -/
def CartInvariant (items : List CartItem) : Prop :=
  (keys items).Nodup ∧ ∀ c ∈ items, 1 ≤ c.quantity

/-- Insert a group separator after every third digit of a reversed digit
string. -/
def chunk3 : List Char → List Char
  | a :: b :: c :: d :: rest => a :: b :: c :: ',' :: chunk3 (d :: rest)
  | l => l

/-- Group the digits of a decimal integer string in threes with commas,
as the en-US locale does. -/
def groupThousands (s : String) : String :=
  String.mk (chunk3 s.data.reverse).reverse

/-- Render a value below 100 with exactly two digits. -/
def twoDigits (n : Nat) : String :=
  if n < 10 then "0" ++ toString n else toString n

/-- Round to the nearest integer, halves away from zero: the default
rounding mode of `Intl.NumberFormat`. -/
def roundHalfExpand (q : ℚ) : Int :=
  if q < 0 then -(Int.floor ((1 : ℚ) / 2 - q)) else Int.floor (q + 1 / 2)

/-- Modelled from the spec: `formatCurrency` in the helpers module delegates
to the platform formatter `Intl.NumberFormat("en-US", { style: "currency",
currency: "USD" })`, which is not code of this repository; this definition
follows the spec's fixed-locale rule — two decimal places, thousands
separators, and a prefixed USD symbol — with no locale parameter exposed. -/
def formatCurrency (value : ℚ) : String :=
  let cents := roundHalfExpand (value * 100)
  let n := cents.natAbs
  (if cents < 0 then "-$" else "$") ++
    groupThousands (toString (n / 100)) ++ "." ++ twoDigits (n % 100)

/-- A concrete catalog record, price 10, used to instantiate theorems. -/
def productA : Product :=
  { id := 1, name := "Alpha", description := "first sample", price := 10,
    imageUrl := "alpha.png" }

/-- A concrete catalog record, price 5 and a distinct id. -/
def productB : Product :=
  { id := 2, name := "Beta", description := "second sample", price := 5,
    imageUrl := "beta.png" }

/-- A concrete catalog record sharing `productA`'s id but differing in every
other field. -/
def productA2 : Product :=
  { id := 1, name := "AlphaPrime", description := "same id, other fields",
    price := 12, imageUrl := "alpha2.png" }

/-- A concrete cart entry for `productA`. -/
def itemA : CartItem := { product := productA, quantity := 1 }

/-- A concrete cart entry for `productB`. -/
def itemB : CartItem := { product := productB, quantity := 1 }

/-- A concrete input item for `productA` with a stale quantity field. -/
def sampleA : CartItem := { product := productA, quantity := 3 }

/-- A concrete input item with `productA`'s id but different product fields
and quantity. -/
def sampleB : CartItem := { product := productA2, quantity := 7 }

/-! ### Bridge lemmas: index-based operations as first-match recursions -/

theorem findIndexOpt_eq_none (p : CartItem → Bool) (items : List CartItem) :
    findIndexOpt p items = none ↔ items.any p = false := by
  induction items with
  | nil => simp [findIndexOpt]
  | cons c cs ih =>
    by_cases h : p c
    · simp [findIndexOpt, h]
    · simp only [Bool.not_eq_true] at h
      simp [findIndexOpt, h, ih]

theorem findItemIndex_eq_neg_one (items : List CartItem) (item : CartItem) :
    findItemIndex items item = -1 ↔ isInCart items item.product = false := by
  unfold findItemIndex isInCart
  cases hs : findIndexOpt (fun cartItem => cartItem.product.id == item.product.id) items with
  | none =>
    rw [findIndexOpt_eq_none] at hs
    simpa using hs
  | some i =>
    constructor
    · intro hi
      have hi' : (i : Int) = -1 := hi
      omega
    · intro hi
      rw [← findIndexOpt_eq_none] at hi
      rw [hi] at hs
      exact absurd hs (by simp)

theorem removeItem_cons_pos (c : CartItem) (cs : List CartItem) (item : CartItem)
    (h : (c.product.id == item.product.id) = true) :
    removeItem (c :: cs) item = cs := by
  simp [removeItem, findItemIndex, findIndexOpt, h]

theorem removeItem_cons_neg (c : CartItem) (cs : List CartItem) (item : CartItem)
    (h : (c.product.id == item.product.id) = false) :
    removeItem (c :: cs) item = c :: removeItem cs item := by
  unfold removeItem findItemIndex
  simp only [findIndexOpt, h, Bool.false_eq_true, if_false]
  cases hs : findIndexOpt (fun cartItem => cartItem.product.id == item.product.id) cs with
  | none => simp
  | some i =>
    have h1 : ((i : Int) + 1) > -1 := by omega
    have h2 : ((i : Int) + 1).toNat = i + 1 := by omega
    have h3 : ((i : Int)) > -1 := by omega
    have h4 : ((i : Int)).toNat = i := by omega
    simp [h1, h2, h3, h4, Option.map_some, List.eraseIdx_cons_succ]

theorem incrementQuantity_cons_pos (c : CartItem) (cs : List CartItem) (item : CartItem)
    (h : (c.product.id == item.product.id) = true) :
    incrementQuantity (c :: cs) item = { c with quantity := c.quantity + 1 } :: cs := by
  simp [incrementQuantity, findItemIndex, findIndexOpt, h, modifyAt]

theorem incrementQuantity_cons_neg (c : CartItem) (cs : List CartItem) (item : CartItem)
    (h : (c.product.id == item.product.id) = false) :
    incrementQuantity (c :: cs) item = c :: incrementQuantity cs item := by
  unfold incrementQuantity findItemIndex
  simp only [findIndexOpt, h, Bool.false_eq_true, if_false]
  cases hs : findIndexOpt (fun cartItem => cartItem.product.id == item.product.id) cs with
  | none => simp
  | some i =>
    have h1 : ((i : Int) + 1) > -1 := by omega
    have h2 : ((i : Int) + 1).toNat = i + 1 := by omega
    have h3 : ((i : Int)) > -1 := by omega
    have h4 : ((i : Int)).toNat = i := by omega
    simp [h1, h2, h3, h4, Option.map_some, modifyAt]

theorem decrementQuantity_cons_pos (c : CartItem) (cs : List CartItem) (item : CartItem)
    (h : (c.product.id == item.product.id) = true) :
    decrementQuantity (c :: cs) item =
      if c.quantity - 1 == 0 then cs else { c with quantity := c.quantity - 1 } :: cs := by
  simp only [decrementQuantity, findItemIndex, findIndexOpt, h, if_true, if_pos]
  norm_num
  simp [modifyAt]

theorem decrementQuantity_cons_neg (c : CartItem) (cs : List CartItem) (item : CartItem)
    (h : (c.product.id == item.product.id) = false) :
    decrementQuantity (c :: cs) item = c :: decrementQuantity cs item := by
  unfold decrementQuantity findItemIndex
  simp only [findIndexOpt, h, Bool.false_eq_true, if_false]
  cases hs : findIndexOpt (fun cartItem => cartItem.product.id == item.product.id) cs with
  | none => simp
  | some i =>
    have h1 : ((i : Int) + 1) > -1 := by omega
    have h2 : ((i : Int) + 1).toNat = i + 1 := by omega
    have h3 : ((i : Int)) > -1 := by omega
    have h4 : ((i : Int)).toNat = i := by omega
    cases hg : (modifyAt cs i fun c => { c with quantity := c.quantity - 1 })[i]? with
    | none => simp [h1, h2, h3, h4, hg, modifyAt]
    | some d =>
      by_cases hz : d.quantity = 0
      · simp [h1, h2, h3, h4, hg, hz, modifyAt]
      · simp [h1, h2, h3, h4, hg, hz, modifyAt]

theorem removeItem_eq_removeFirst (items : List CartItem) (item : CartItem) :
    removeItem items item = removeFirst item.product.id items := by
  induction items with
  | nil => rfl
  | cons c cs ih =>
    by_cases h : (c.product.id == item.product.id) = true
    · rw [removeItem_cons_pos c cs item h]
      have h' : (c.product.id == item.product.id) = true := h
      simp only [removeFirst, h', if_true]
    · have h' : (c.product.id == item.product.id) = false := by
        simpa using h
      rw [removeItem_cons_neg c cs item h', ih]
      simp only [removeFirst, h', Bool.false_eq_true, if_false]

theorem incrementQuantity_eq_incFirst (items : List CartItem) (item : CartItem) :
    incrementQuantity items item = incFirst item.product.id items := by
  induction items with
  | nil => rfl
  | cons c cs ih =>
    by_cases h : (c.product.id == item.product.id) = true
    · rw [incrementQuantity_cons_pos c cs item h]
      simp only [incFirst, h, if_true]
    · have h' : (c.product.id == item.product.id) = false := by
        simpa using h
      rw [incrementQuantity_cons_neg c cs item h', ih]
      simp only [incFirst, h', Bool.false_eq_true, if_false]

theorem decrementQuantity_eq_decFirst (items : List CartItem) (item : CartItem) :
    decrementQuantity items item = decFirst item.product.id items := by
  induction items with
  | nil => rfl
  | cons c cs ih =>
    by_cases h : (c.product.id == item.product.id) = true
    · rw [decrementQuantity_cons_pos c cs item h]
      simp only [decFirst, h, if_true]
    · have h' : (c.product.id == item.product.id) = false := by
        simpa using h
      rw [decrementQuantity_cons_neg c cs item h', ih]
      simp only [decFirst, h', Bool.false_eq_true, if_false]

theorem addItem_eq (items : List CartItem) (item : CartItem) :
    addItem items item =
      if isInCart items item.product then items
      else items ++ [{ item with quantity := 1 }] := by
  unfold addItem
  by_cases h : findItemIndex items item = -1
  · have hin : isInCart items item.product = false :=
      (findItemIndex_eq_neg_one items item).mp h
    simp [h, hin]
  · have hin : isInCart items item.product = true := by
      by_contra hc
      simp only [Bool.not_eq_true] at hc
      exact h ((findItemIndex_eq_neg_one items item).mpr hc)
    have hb : (findItemIndex items item == -1) = false := by
      simpa using h
    simp [hb, hin]

/-! ### Support lemmas about the first-match recursions -/

theorem keys_cons (c : CartItem) (cs : List CartItem) :
    keys (c :: cs) = c.product.id :: keys cs := rfl

theorem keys_append (l r : List CartItem) :
    keys (l ++ r) = keys l ++ keys r := by
  simp [keys]

theorem removeFirst_sublist (pid : Nat) (items : List CartItem) :
    List.Sublist (removeFirst pid items) items := by
  induction items with
  | nil => simp [removeFirst]
  | cons c cs ih =>
    by_cases h : (c.product.id == pid) = true
    · simp only [removeFirst, h, if_true]
      exact List.Sublist.cons c (List.Sublist.refl cs)
    · have h' : (c.product.id == pid) = false := by simpa using h
      simp only [removeFirst, h', Bool.false_eq_true, if_false]
      exact List.Sublist.cons₂ c ih

theorem keys_incFirst (pid : Nat) (items : List CartItem) :
    keys (incFirst pid items) = keys items := by
  induction items with
  | nil => rfl
  | cons c cs ih =>
    by_cases h : (c.product.id == pid) = true
    · simp [incFirst, h, keys_cons]
    · have h' : (c.product.id == pid) = false := by simpa using h
      simp [incFirst, h', keys_cons, ih]

theorem keys_decFirst_sublist (pid : Nat) (items : List CartItem) :
    List.Sublist (keys (decFirst pid items)) (keys items) := by
  induction items with
  | nil => simp [decFirst]
  | cons c cs ih =>
    by_cases h : (c.product.id == pid) = true
    · by_cases hz : c.quantity - 1 = 0
      · simp only [decFirst, h, if_true, hz, beq_self_eq_true, keys_cons]
        exact List.Sublist.cons _ (List.Sublist.refl _)
      · have hz' : (c.quantity - 1 == 0) = false := by simpa using hz
        simp only [decFirst, h, if_true, hz', Bool.false_eq_true, if_false, keys_cons]
        exact List.Sublist.refl _
    · have h' : (c.product.id == pid) = false := by simpa using h
      simp only [decFirst, h', Bool.false_eq_true, if_false, keys_cons]
      exact List.Sublist.cons₂ _ ih

theorem quantity_incFirst (pid : Nat) (items : List CartItem)
    (h : ∀ c ∈ items, 1 ≤ c.quantity) :
    ∀ c ∈ incFirst pid items, 1 ≤ c.quantity := by
  induction items with
  | nil => simp [incFirst]
  | cons c cs ih =>
    rw [List.forall_mem_cons] at h
    by_cases hc : (c.product.id == pid) = true
    · simp only [incFirst, hc, if_true, List.forall_mem_cons]
      exact ⟨by omega, h.2⟩
    · have hc' : (c.product.id == pid) = false := by simpa using hc
      simp only [incFirst, hc', Bool.false_eq_true, if_false, List.forall_mem_cons]
      exact ⟨h.1, ih h.2⟩

theorem quantity_decFirst (pid : Nat) (items : List CartItem)
    (h : ∀ c ∈ items, 1 ≤ c.quantity) :
    ∀ c ∈ decFirst pid items, 1 ≤ c.quantity := by
  induction items with
  | nil => simp [decFirst]
  | cons c cs ih =>
    rw [List.forall_mem_cons] at h
    by_cases hc : (c.product.id == pid) = true
    · by_cases hz : c.quantity - 1 = 0
      · simp only [decFirst, hc, if_true, hz, beq_self_eq_true]
        exact h.2
      · have hz' : (c.quantity - 1 == 0) = false := by simpa using hz
        simp only [decFirst, hc, if_true, hz', Bool.false_eq_true, if_false,
          List.forall_mem_cons]
        refine ⟨?_, h.2⟩
        have := h.1
        omega
    · have hc' : (c.product.id == pid) = false := by simpa using hc
      simp only [decFirst, hc', Bool.false_eq_true, if_false, List.forall_mem_cons]
      exact ⟨h.1, ih h.2⟩

theorem incFirst_append_notmem (pid : Nat) (l r : List CartItem)
    (h : ∀ c ∈ l, (c.product.id == pid) = false) :
    incFirst pid (l ++ r) = l ++ incFirst pid r := by
  induction l with
  | nil => rfl
  | cons c cs ih =>
    rw [List.forall_mem_cons] at h
    simp only [List.cons_append, incFirst, h.1, Bool.false_eq_true, if_false,
      List.append_eq, ih h.2]

theorem decFirst_append_notmem (pid : Nat) (l r : List CartItem)
    (h : ∀ c ∈ l, (c.product.id == pid) = false) :
    decFirst pid (l ++ r) = l ++ decFirst pid r := by
  induction l with
  | nil => rfl
  | cons c cs ih =>
    rw [List.forall_mem_cons] at h
    simp only [List.cons_append, decFirst, h.1, Bool.false_eq_true, if_false,
      List.append_eq, ih h.2]

theorem isInCart_eq_false_iff (items : List CartItem) (p : Product) :
    isInCart items p = false ↔ ∀ c ∈ items, (c.product.id == p.id) = false := by
  simp [isInCart, List.any_eq_false]

theorem isInCart_eq_false_notmem_keys (items : List CartItem) (p : Product) :
    isInCart items p = false ↔ p.id ∉ keys items := by
  rw [isInCart_eq_false_iff]
  constructor
  · intro h hm
    unfold keys at hm
    rw [List.mem_map] at hm
    obtain ⟨c, hc, hid⟩ := hm
    have hb := h c hc
    rw [beq_eq_false_iff_ne] at hb
    exact hb hid
  · intro h c hc
    rw [beq_eq_false_iff_ne]
    intro hid
    refine h ?_
    unfold keys
    rw [List.mem_map]
    exact ⟨c, hc, hid⟩

theorem removeFirst_eq_filter (pid : Nat) (items : List CartItem)
    (hnd : (keys items).Nodup) :
    removeFirst pid items = items.filter (fun c => !(c.product.id == pid)) := by
  induction items with
  | nil => rfl
  | cons c cs ih =>
    rw [keys_cons, List.nodup_cons] at hnd
    by_cases h : (c.product.id == pid) = true
    · have hpid : c.product.id = pid := by simpa using h
      have hall : ∀ x ∈ cs, (!(x.product.id == pid)) = true := by
        intro x hx
        have hne : x.product.id ≠ pid := by
          intro he
          refine hnd.1 ?_
          unfold keys
          rw [List.mem_map]
          exact ⟨x, hx, by rw [he, hpid]⟩
        simpa using hne
      simp only [removeFirst, h, if_true, List.filter_cons, Bool.not_true,
        Bool.false_eq_true, if_false]
      symm
      rw [List.filter_eq_self]
      exact hall
    · have h' : (c.product.id == pid) = false := by simpa using h
      simp [removeFirst, h', ih hnd.2]

theorem findItemIndex_congr (items : List CartItem) (a b : CartItem)
    (h : a.product.id = b.product.id) :
    findItemIndex items a = findItemIndex items b := by
  unfold findItemIndex
  rw [h]

theorem foldl_price (items : List CartItem) (a : ℚ) :
    items.foldl (fun total c => total + c.product.price * (c.quantity : ℚ)) a =
      a + (items.map (fun c => c.product.price * (c.quantity : ℚ))).sum := by
  induction items generalizing a with
  | nil => simp
  | cons c cs ih =>
    rw [List.foldl_cons, ih, List.map_cons, List.sum_cons]
    ring

/-! ### Claim theorems -/

/-- C1: every cart satisfying the CartEntry invariant (at most one entry per
distinct product id, every quantity at least 1) is mapped by each of the four
store operations to a cart that still satisfies the invariant. -/
theorem claim_invariant_preserved (items : List CartItem) (item : CartItem)
    (h : CartInvariant items) :
    CartInvariant (addItem items item) ∧
    CartInvariant (removeItem items item) ∧
    CartInvariant (incrementQuantity items item) ∧
    CartInvariant (decrementQuantity items item) := by
  obtain ⟨hnd, hq⟩ := h
  refine ⟨?_, ?_, ?_, ?_⟩
  · rw [addItem_eq]
    by_cases hin : isInCart items item.product = true
    · simp only [hin, if_true]
      exact ⟨hnd, hq⟩
    · have hin' : isInCart items item.product = false := by simpa using hin
      simp only [hin', Bool.false_eq_true, if_false]
      constructor
      · rw [keys_append]
        have hnm : item.product.id ∉ keys items :=
          (isInCart_eq_false_notmem_keys items item.product).mp hin'
        have hk : keys [{ item with quantity := 1 }] = [item.product.id] := rfl
        rw [hk, List.nodup_append]
        refine ⟨hnd, List.nodup_singleton _, ?_⟩
        intro x hx hxs
        rw [List.mem_singleton] at hxs
        subst hxs
        exact hnm hx
      · intro c hc
        rw [List.mem_append] at hc
        rcases hc with hc | hc
        · exact hq c hc
        · rw [List.mem_singleton] at hc
          subst hc
          simp
  · rw [removeItem_eq_removeFirst]
    refine ⟨?_, ?_⟩
    · have hsub :=
        (removeFirst_sublist item.product.id items).map (fun c => c.product.id)
      exact List.Nodup.sublist hsub hnd
    · intro c hc
      exact hq c ((removeFirst_sublist item.product.id items).subset hc)
  · rw [incrementQuantity_eq_incFirst]
    refine ⟨?_, quantity_incFirst _ _ hq⟩
    rw [keys_incFirst]
    exact hnd
  · rw [decrementQuantity_eq_decFirst]
    exact ⟨List.Nodup.sublist (keys_decFirst_sublist item.product.id items) hnd,
      quantity_decFirst _ _ hq⟩

/-- Witness for C1 at a concrete one-entry cart and a fresh input item. -/
theorem claim_invariant_preserved_witness :
    CartInvariant [itemA] ∧
    (CartInvariant (addItem [itemA] itemB) ∧
     CartInvariant (removeItem [itemA] itemB) ∧
     CartInvariant (incrementQuantity [itemA] itemB) ∧
     CartInvariant (decrementQuantity [itemA] itemB)) :=
  ⟨⟨by decide, by decide⟩,
   claim_invariant_preserved [itemA] itemB ⟨by decide, by decide⟩⟩

/-- C2: when no entry with the item's product id exists, `addItem` appends
exactly one entry with quantity 1 (ignoring the input's quantity), and a
second `addItem` for the same id is a no-op; when an entry exists, `addItem`
leaves the cart unchanged. -/
theorem claim_addItem_membership (items : List CartItem) (item : CartItem) :
    (isInCart items item.product = false →
      addItem items item = items ++ [{ item with quantity := 1 }] ∧
      addItem (addItem items item) item = items ++ [{ item with quantity := 1 }]) ∧
    (isInCart items item.product = true → addItem items item = items) := by
  constructor
  · intro hin
    have h1 : addItem items item = items ++ [{ item with quantity := 1 }] := by
      rw [addItem_eq, hin]
      simp
    refine ⟨h1, ?_⟩
    rw [h1, addItem_eq]
    have hin2 : isInCart (items ++ [{ item with quantity := 1 }]) item.product = true := by
      simp [isInCart]
    rw [hin2]
    simp
  · intro hin
    rw [addItem_eq, hin]
    simp

/-- Witness for C2 on the empty cart. -/
theorem claim_addItem_membership_witness :
    addItem [] itemA = [{ itemA with quantity := 1 }] ∧
    addItem (addItem [] itemA) itemA = [{ itemA with quantity := 1 }] :=
  (claim_addItem_membership [] itemA).1 (by decide)

/-- C3: on a cart without product P, `addItem` for P followed by
`decrementQuantity` for P restores the original cart, so `isInCart` for P is
false afterwards: decrementing a quantity-1 entry removes it. -/
theorem claim_decrement_after_add (items : List CartItem) (item : CartItem)
    (h : isInCart items item.product = false) :
    decrementQuantity (addItem items item) item = items ∧
    isInCart (decrementQuantity (addItem items item) item) item.product = false := by
  have hadd : addItem items item = items ++ [{ item with quantity := 1 }] := by
    rw [addItem_eq, h]
    simp
  have hmem : ∀ c ∈ items, (c.product.id == item.product.id) = false := by
    rw [isInCart_eq_false_iff] at h
    exact h
  have hdec : decrementQuantity (items ++ [{ item with quantity := 1 }]) item = items := by
    rw [decrementQuantity_eq_decFirst, decFirst_append_notmem _ _ _ hmem]
    norm_num [decFirst]
  rw [hadd, hdec]
  exact ⟨rfl, h⟩

/-- Witness for C3: a cart holding only `itemB` and the input `itemA`. -/
theorem claim_decrement_after_add_witness :
    decrementQuantity (addItem [itemB] itemA) itemA = [itemB] ∧
    isInCart (decrementQuantity (addItem [itemB] itemA) itemA) itemA.product = false :=
  claim_decrement_after_add [itemB] itemA (by decide)

/-- C4: `removeItem`, `incrementQuantity` and `decrementQuantity` called for a
product id matching no entry leave the cart unchanged and raise no failure. -/
theorem claim_absent_noop (items : List CartItem) (item : CartItem)
    (h : isInCart items item.product = false) :
    removeItem items item = items ∧
    incrementQuantity items item = items ∧
    decrementQuantity items item = items := by
  have hidx : findItemIndex items item = -1 :=
    (findItemIndex_eq_neg_one items item).mpr h
  refine ⟨?_, ?_, ?_⟩
  · simp only [removeItem, hidx]
    norm_num
  · simp only [incrementQuantity, hidx]
    norm_num
  · simp only [decrementQuantity, hidx]
    norm_num

/-- Witness for C4: a one-entry cart and an absent product. -/
theorem claim_absent_noop_witness :
    removeItem [itemA] itemB = [itemA] ∧
    incrementQuantity [itemA] itemB = [itemA] ∧
    decrementQuantity [itemA] itemB = [itemA] :=
  claim_absent_noop [itemA] itemB (by decide)

/-- C5: after `addItem` for a previously-absent product, `incrementQuantity`
then `decrementQuantity` for it return the cart exactly to its pre-increment
state. -/
theorem claim_inc_dec_roundtrip (items : List CartItem) (item : CartItem)
    (h : isInCart items item.product = false) :
    decrementQuantity (incrementQuantity (addItem items item) item) item =
      addItem items item := by
  have hadd : addItem items item = items ++ [{ item with quantity := 1 }] := by
    rw [addItem_eq, h]
    simp
  have hmem : ∀ c ∈ items, (c.product.id == item.product.id) = false := by
    rw [isInCart_eq_false_iff] at h
    exact h
  rw [hadd, incrementQuantity_eq_incFirst, incFirst_append_notmem _ _ _ hmem]
  have hinc : incFirst item.product.id [{ item with quantity := 1 }] =
      [{ item with quantity := (1 : Int) + 1 }] := by
    simp [incFirst]
  rw [hinc, decrementQuantity_eq_decFirst, decFirst_append_notmem _ _ _ hmem]
  have hdec : decFirst item.product.id [{ item with quantity := (1 : Int) + 1 }] =
      [{ item with quantity := 1 }] := by
    norm_num [decFirst]
  rw [hdec]

/-- Witness for C5: a cart holding only `itemB` and the input `itemA`. -/
theorem claim_inc_dec_roundtrip_witness :
    decrementQuantity (incrementQuantity (addItem [itemB] itemA) itemA) itemA =
      addItem [itemB] itemA :=
  claim_inc_dec_roundtrip [itemB] itemA (by decide)

/-- C6: on an invariant-satisfying cart containing the input's product id,
`removeItem` deletes that entry entirely whatever its quantity — no entry with
that id remains — and keeps every other entry. -/
theorem claim_removeItem_deletes (items : List CartItem) (item : CartItem)
    (hnd : (keys items).Nodup) (hin : isInCart items item.product = true) :
    isInCart (removeItem items item) item.product = false ∧
    removeItem items item =
      items.filter (fun c => !(c.product.id == item.product.id)) := by
  have hf := removeFirst_eq_filter item.product.id items hnd
  constructor
  · rw [removeItem_eq_removeFirst, hf, isInCart_eq_false_iff]
    intro c hc
    rw [List.mem_filter] at hc
    have h2 := hc.2
    simpa using h2
  · rw [removeItem_eq_removeFirst, hf]

/-- Witness for C6: a two-entry cart and an input whose quantity is stale. -/
theorem claim_removeItem_deletes_witness :
    isInCart (removeItem [itemA, itemB] sampleA) sampleA.product = false ∧
    removeItem [itemA, itemB] sampleA =
      List.filter (fun c => !(c.product.id == sampleA.product.id)) [itemA, itemB] :=
  claim_removeItem_deletes [itemA, itemB] sampleA (by decide) (by decide)

/-- C7: `getTotalPrice` is the sum over all entries of price times quantity,
is 0 on the empty cart, is total (the embedding is a total function), and on
the two-entry cart with prices 10 and 5 and quantities 2 and 1 equals 25. -/
theorem claim_getTotalPrice (items : List CartItem) :
    getTotalPrice items =
      (items.map (fun c => c.product.price * (c.quantity : ℚ))).sum ∧
    getTotalPrice ([] : List CartItem) = 0 ∧
    getTotalPrice [{ product := productA, quantity := 2 },
                   { product := productB, quantity := 1 }] = 25 := by
  refine ⟨?_, rfl, ?_⟩
  · unfold getTotalPrice
    rw [foldl_price]
    simp
  · norm_num [getTotalPrice, productA, productB]

/-- C8: `isInCart` is true exactly when some entry's product id equals the
given product's id; hence it is false on the empty cart and true right after
`addItem` for that product. -/
theorem claim_isInCart (items : List CartItem) (p : Product) :
    (isInCart items p = true ↔ ∃ c ∈ items, c.product.id = p.id) ∧
    isInCart ([] : List CartItem) p = false ∧
    ∀ (its : List CartItem),
      isInCart (addItem its { product := p, quantity := 1 }) p = true := by
  refine ⟨?_, rfl, ?_⟩
  · simp [isInCart, List.any_eq_true]
  · intro its
    rw [addItem_eq]
    by_cases h : isInCart its p = true
    · simp [h]
    · have h' : isInCart its p = false := by simpa using h
      simp only [h', Bool.false_eq_true, if_false]
      simp [isInCart]

/-- C9: the currency formatter is a pure function of its numeric argument
with the locale fixed, and renders 1234.5 with two decimal places, a
thousands separator and a prefixed USD symbol. -/
theorem claim_formatCurrency_render :
    formatCurrency (1234.5 : ℚ) = "$1,234.50" := by
  have h1 : roundHalfExpand ((1234.5 : ℚ) * 100) = 123450 := by
    unfold roundHalfExpand
    norm_num
  simp only [formatCurrency]
  rw [h1]
  decide

/-- C10: the three index-based operations give identical results for any two
inputs sharing a product id — quantity and non-id product fields never
matter — and `addItem` ignores the input's quantity entirely. -/
theorem claim_ops_key_on_id (items : List CartItem) (a b : CartItem)
    (h : a.product.id = b.product.id) :
    removeItem items a = removeItem items b ∧
    incrementQuantity items a = incrementQuantity items b ∧
    decrementQuantity items a = decrementQuantity items b ∧
    ∀ (q q' : Int),
      addItem items { product := a.product, quantity := q } =
        addItem items { product := a.product, quantity := q' } := by
  refine ⟨?_, ?_, ?_, ?_⟩
  · unfold removeItem
    rw [findItemIndex_congr items a b h]
  · unfold incrementQuantity
    rw [findItemIndex_congr items a b h]
  · unfold decrementQuantity
    rw [findItemIndex_congr items a b h]
  · intro q q'
    unfold addItem
    rw [findItemIndex_congr items { product := a.product, quantity := q }
      { product := a.product, quantity := q' } rfl]

/-- Witness for C10: two inputs sharing product id 1 but differing in every
other field, on a one-entry cart. -/
theorem claim_ops_key_on_id_witness :
    removeItem [itemA] sampleA = removeItem [itemA] sampleB ∧
    addItem [itemA] { product := sampleA.product, quantity := 2 } =
      addItem [itemA] { product := sampleA.product, quantity := 9 } :=
  ⟨(claim_ops_key_on_id [itemA] sampleA sampleB (by decide)).1,
   (claim_ops_key_on_id [itemA] sampleA sampleB (by decide)).2.2.2 2 9⟩

end Cart
